import Mathlib

/-!
Shallow embedding of the QuadGraph library (src/index.js).

A node is a JavaScript array of 4 slots, each holding either null or a
connection object `\x7b num, side \x7d`; we model a slot as `Option Conn` and the
four slots as the structure `Node`. The graph owns `nodes` (a growable
array of Node) and `valuePool` (a `Map` keyed by the node object itself).
Since every node created through the constructor, `add` or `populate` is a
fresh array, node identity is in bijection with the node index for every
graph built through the public API; the pool key is therefore modelled as
`Option Nat`: `some i` is the node currently at index `i`, and `none` is
the single JavaScript `undefined` value produced by reading `nodes[index]`
at an out-of-range index.

JavaScript functions that end without a `return` statement produce
`undefined`; `link` and `unlink` return `false` on their failure paths and
fall off the end on success, so their result is modelled as
`Graph × Option Bool` with `some false` for the failure return and `none`
for `undefined`. Reading a field of `undefined` throws a `TypeError`; the
operations below are only applied, in every claim, at indices where the
source cannot throw, and the corresponding unreachable branches are marked
in comments.
-/

namespace QuadGraph

/-- Connection object `\x7b num, side \x7d` stored in a node slot (src/index.js lines 72-80). -/
structure Conn where
  num : Nat
  side : Nat
deriving DecidableEq

/-- One node: a 4-slot array, each slot `null` or a connection. -/
structure Node where
  s0 : Option Conn
  s1 : Option Conn
  s2 : Option Conn
  s3 : Option Conn
deriving DecidableEq

/-- The empty node `[null, null, null, null]`. -/
def Node.empty : Node := ⟨none, none, none, none⟩

/-- Array read `node[s]`; an index other than 0..3 reads `undefined` (no connection). -/
def Node.get (nd : Node) (s : Nat) : Option Conn :=
  if s = 0 then nd.s0
  else if s = 1 then nd.s1
  else if s = 2 then nd.s2
  else if s = 3 then nd.s3
  else none

/-- Array write `node[s] = c`. All writes in the source use sides 0..3; other
indices are left unmodelled (identity). -/
def Node.set (nd : Node) (s : Nat) (c : Option Conn) : Node :=
  if s = 0 then { nd with s0 := c }
  else if s = 1 then { nd with s1 := c }
  else if s = 2 then { nd with s2 := c }
  else if s = 3 then { nd with s3 := c }
  else nd

/-- Identity key of the value pool: the node object at an index, or the one
JavaScript `undefined` for an out-of-range read. -/
abbrev PoolKey : Type := Option Nat

/-- Entry list of the `valuePool` Map. -/
abbrev Pool : Type := List (PoolKey × String)

/-- `Map.set`: overwrite the entry for the key, else append it. -/
def poolSet : Pool → PoolKey → String → Pool
  | [], k, v => [(k, v)]
  | (k', v') :: rest, k, v =>
      if k' = k then (k, v) :: rest else (k', v') :: poolSet rest k v

/-- `Map.get`: the stored value for the key, or `undefined`. -/
def poolGet : Pool → PoolKey → Option String
  | [], _ => none
  | (k', v') :: rest, k => if k' = k then some v' else poolGet rest k

/-- The graph: `this.nodes` and `this.valuePool` (src/index.js lines 11-14). -/
structure Graph where
  nodes : List Node
  pool : Pool
deriving DecidableEq

/-- `new QuadGraph(nodes)`: the given nodes and a fresh empty value pool. -/
def mkGraph (nodes : List Node) : Graph := ⟨nodes, []⟩

/-- The pool key `this.nodes[index]`: the node object when the index is in
range, the JavaScript `undefined` otherwise. -/
def identityKey (g : Graph) (index : Nat) : PoolKey :=
  if index < g.nodes.length then some index else none

/-- `add(node, value)` (src/index.js lines 27-32): push the node; when a value
is given, key it by the new node object. -/
def add (g : Graph) (node : Node) (value : Option String) : Graph :=
  let g' : Graph := { g with nodes := g.nodes ++ [node] }
  match value with
  | none => g'
  | some v => { g' with pool := poolSet g'.pool (some g.nodes.length) v }

/-- `setValue(index, value)` (src/index.js lines 39-41):
`valuePool.set(this.nodes[index], value)` — no bounds check. -/
def setValue (g : Graph) (index : Nat) (value : String) : Graph :=
  { g with pool := poolSet g.pool (identityKey g index) value }

/-- `populate(num)` (src/index.js lines 48-50): add `num` empty nodes. -/
def populate (g : Graph) : Nat → Graph
  | 0 => g
  | n + 1 => populate (add g Node.empty none) n

/-- The slot `this.nodes[index][s]`. An out-of-range index makes the source
throw a TypeError; the claims only evaluate this at in-range indices, where
the result below is exactly what the source reads. -/
def slotOf (g : Graph) (index s : Nat) : Option Conn :=
  match g.nodes[index]? with
  | some nd => nd.get s
  | none => none

/-- In-place slot write `this.nodes[index][s] = c` (identity when the index is
out of range, which no claim exercises). -/
def setSlot (g : Graph) (index s : Nat) (c : Option Conn) : Graph :=
  match g.nodes[index]? with
  | some nd => { g with nodes := g.nodes.set index (nd.set s c) }
  | none => g

/-- `link(firstIndex, firstSide, secondIndex, secondSide)` (src/index.js
lines 60-81): fail with `false` when either slot is occupied, else write
the two reciprocal connections and fall off the end (`undefined`). -/
def link (g : Graph) (firstIndex firstSide secondIndex secondSide : Nat) :
    Graph × Option Bool :=
  if firstIndex < g.nodes.length ∧ secondIndex < g.nodes.length then
    if (slotOf g firstIndex firstSide).isSome
        || (slotOf g secondIndex secondSide).isSome then
      (g, some false)
    else
      let g1 := setSlot g firstIndex firstSide (some ⟨secondIndex, secondSide⟩)
      let g2 := setSlot g1 secondIndex secondSide (some ⟨firstIndex, firstSide⟩)
      (g2, none)
  else
    (g, some false)  -- the source throws here; unreachable under the claims

/-- `unlink(firstIndex, firstSide, secondIndex, secondSide)` (src/index.js
lines 91-97). The source compares only the `num` field of each slot
(`nodes[firstIndex][firstSide]?.num != secondIndex`); the stored `side`
fields are never compared. On success both slots are set to null and the
function falls off the end (`undefined`). -/
def unlink (g : Graph) (firstIndex firstSide secondIndex secondSide : Nat) :
    Graph × Option Bool :=
  if firstIndex < g.nodes.length ∧ secondIndex < g.nodes.length then
    if (slotOf g firstIndex firstSide).map Conn.num ≠ some secondIndex then
      (g, some false)
    else if (slotOf g secondIndex secondSide).map Conn.num ≠ some firstIndex then
      (g, some false)
    else
      let g1 := setSlot g firstIndex firstSide none
      let g2 := setSlot g1 secondIndex secondSide none
      (g2, none)
  else
    (g, some false)  -- the source throws here; unreachable under the claims

/-- A cursor: the `index` and `turn` fields of the object returned by
`build` (src/index.js lines 112-156). The captured `node` field always
equals `nodes[index]` and is re-derived from the graph where needed. -/
structure Cursor where
  index : Nat
  turn : Nat
deriving DecidableEq

/-- `build(index, turn)`: package the index and turn into a cursor object.
No bounds check is performed on `index`. -/
def build (g : Graph) (index : Nat) (turn : Nat) : Cursor :=
  { index := index, turn := turn }

/-- The new turn `((connection?.side + 2 - i + 4) % 4)` (src/index.js line
127), computed with JavaScript number arithmetic, i.e. over the integers. -/
def newTurnCalc (side i : Nat) : Nat :=
  ((((side : Int) + 2 - (i : Int) + 4) % 4)).toNat

/-- `next(i)` (src/index.js lines 123-134) in state-passing form: the pair of
the graph after the call and the returned cursor (`none` for `null`). The
body performs no assignment, only reads:
read `connection = res.node[(i + res.turn) % 4]`; when `nodes[connection?.num]`
is an array, return `self.build(newIndex, newTurn)`, else return null. -/
def nextFull (g : Graph) (c : Cursor) (i : Nat) : Graph × Option Cursor :=
  match slotOf g c.index ((i + c.turn) % 4) with
  | none => (g, none)
  | some connection =>
      if connection.num < g.nodes.length then
        (g, some (build g connection.num (newTurnCalc connection.side i)))
      else
        (g, none)

/-- The value of `next(i)`. -/
def next (g : Graph) (c : Cursor) (i : Nat) : Option Cursor :=
  (nextFull g c i).2

/-- Getter `right` = `next(0)` (src/index.js lines 141-143). -/
def right (g : Graph) (c : Cursor) : Graph × Option Cursor := nextFull g c 0

/-- Getter `down` = `next(1)` (src/index.js lines 144-146). -/
def down (g : Graph) (c : Cursor) : Graph × Option Cursor := nextFull g c 1

/-- Getter `left` = `next(2)` (src/index.js lines 147-149). -/
def left (g : Graph) (c : Cursor) : Graph × Option Cursor := nextFull g c 2

/-- Getter `up` = `next(3)` (src/index.js lines 150-152). -/
def up (g : Graph) (c : Cursor) : Graph × Option Cursor := nextFull g c 3

/-- Getter `value`: `valuePool.get(this.node)` (src/index.js lines 135-137). -/
def cursorValue (g : Graph) (c : Cursor) : Option String :=
  poolGet g.pool (identityKey g c.index)

/-- Body of one iteration of the nested loops of `grid` (src/index.js lines
168-175): `index = i + j * width`; when `i > 0` link `(index,3)` to
`(index-1,1)`; when `j > 0` link `(index,2)` to `(index-width,0)`. -/
def gridStep (w : Nat) (g : Graph) (i j : Nat) : Graph :=
  let index := i + j * w
  let g1 := if 0 < i then (link g index 3 (index - 1) 1).1 else g
  if 0 < j then (link g1 index 2 (index - w) 0).1 else g1

/-- The inner loop of `grid`: run `gridStep` for `j = 0, 1, ..., J-1` at a
fixed column `i`. -/
def gridRows (w : Nat) (i : Nat) (g : Graph) : Nat → Graph
  | 0 => g
  | j + 1 => gridStep w (gridRows w i g j) i j

/-- The outer loop of `grid`: run the inner loop for `i = 0, 1, ..., I-1`,
each over all `h` rows. -/
def gridCols (w h : Nat) (g : Graph) : Nat → Graph
  | 0 => g
  | i + 1 => gridRows w i (gridCols w h g i) h

/-- `QuadGraph.grid(width, height)` (src/index.js lines 164-178): populate
`width*height` empty nodes, then run the nested loops. -/
def grid (w h : Nat) : Graph :=
  gridCols w h (populate (mkGraph []) (w * h)) w

/-- The demo graph (src/index.js lines 198-225): four empty nodes, the eight
`link` calls, then the four `setValue` calls. -/
def demoGraph : Graph :=
  let g := mkGraph [Node.empty, Node.empty, Node.empty, Node.empty]
  let g := (link g 0 0 1 2).1
  let g := (link g 1 0 2 2).1
  let g := (link g 0 1 2 3).1
  let g := (link g 2 1 0 3).1
  let g := (link g 2 0 3 2).1
  let g := (link g 3 0 2 2).1
  let g := (link g 1 1 3 3).1
  let g := (link g 3 1 1 3).1
  let g := setValue g 0 ("node 0")
  let g := setValue g 1 ("node 1")
  let g := setValue g 2 ("node 2")
  let g := setValue g 3 ("node 3")
  g

/-- A two-node graph with all slots empty, used as a concrete test graph. -/
def twoG : Graph := mkGraph [Node.empty, Node.empty]

/-- The two-node graph after the successful calls `link(0,0,1,2)` and
`link(0,1,1,3)`: slot (0,0) holds ⟨1,2⟩, slot (1,2) holds ⟨0,0⟩,
slot (0,1) holds ⟨1,3⟩ and slot (1,3) holds ⟨0,1⟩. -/
def exG : Graph := (link (link twoG 0 0 1 2).1 0 1 1 3).1

/-- A one-node graph with no values, used as a concrete test graph. -/
def oneG : Graph := add (mkGraph []) Node.empty none

/-- The node predicted at grid position `(c, r)` (index `c + r * w`) once the
nested loops of `grid w h` have processed every column before `I` completely
and rows `0..J-1` of column `I` itself. Each slot is filled exactly when the
loop iteration that writes it has run: side 3 of `(c, r)` and side 1 of
`(c-1, r)` by iteration `(c, r)` when `c > 0`; side 2 of `(c, r)` and side 0
of `(c, r-1)` by iteration `(c, r)` when `r > 0`. -/
def gridTarget (w h I J c r : Nat) : Node where
  s0 := if r + 1 < h ∧ (c < I ∨ (c = I ∧ r + 1 < J)) then
          some ⟨c + (r + 1) * w, 2⟩ else none
  s1 := if c + 1 < I ∨ (c + 1 = I ∧ r < J) then
          some ⟨c + 1 + r * w, 3⟩ else none
  s2 := if 0 < r ∧ (c < I ∨ (c = I ∧ r < J)) then
          some ⟨c + (r - 1) * w, 0⟩ else none
  s3 := if 0 < c ∧ (c < I ∨ (c = I ∧ r < J)) then
          some ⟨c - 1 + r * w, 1⟩ else none

/-- Loop invariant of `grid w h`: the node count is fixed at `w * h` and every
node agrees with `gridTarget` for the loop position `(I, J)`. -/
def gridInv (w h I J : Nat) (g : Graph) : Prop :=
  g.nodes.length = w * h ∧
  ∀ c r : Nat, c < w → r < h → g.nodes[c + r * w]? = some (gridTarget w h I J c r)

/-! ### Basic lemmas about slots, the pool and the write operations -/

theorem Node.get_set (nd : Node) (s t : Nat) (c : Option Conn) (hs : s < 4) :
    (nd.set s c).get t = if t = s then c else nd.get t := by
  interval_cases s <;>
    simp only [Node.set, Node.get, if_true, if_false, reduceIte] <;>
    split_ifs <;> simp_all

theorem length_setSlot (g : Graph) (i s : Nat) (c : Option Conn) :
    (setSlot g i s c).nodes.length = g.nodes.length := by
  unfold setSlot
  cases g.nodes[i]? <;> simp

theorem pool_setSlot (g : Graph) (i s : Nat) (c : Option Conn) :
    (setSlot g i s c).pool = g.pool := by
  unfold setSlot
  cases g.nodes[i]? <;> rfl

theorem getElem?_setSlot (g : Graph) (i s : Nat) (c : Option Conn) (n : Nat) :
    (setSlot g i s c).nodes[n]? =
      if n = i then (g.nodes[n]?).map (fun nd => nd.set s c)
      else g.nodes[n]? := by
  unfold setSlot
  cases h : g.nodes[i]? with
  | none =>
      by_cases hn : n = i
      · subst hn; simp [h]
      · simp [hn]
  | some nd =>
      simp only [List.getElem?_set]
      by_cases hn : n = i
      · subst hn
        have hlt : n < g.nodes.length := by
          rcases List.getElem?_eq_some_iff.mp h with ⟨h1, _⟩
          exact h1
        simp [hlt, h]
      · rw [if_neg (fun hh : i = n => hn hh.symm), if_neg hn]

theorem slotOf_setSlot (g : Graph) (i s : Nat) (c : Option Conn) (n t : Nat)
    (hi : i < g.nodes.length) (hs : s < 4) :
    slotOf (setSlot g i s c) n t =
      if n = i ∧ t = s then c else slotOf g n t := by
  unfold slotOf
  rw [getElem?_setSlot]
  by_cases hn : n = i
  · subst hn
    rw [if_pos rfl, List.getElem?_eq_getElem hi]
    simp only [Option.map_some']
    rw [Node.get_set _ _ _ _ hs]
    by_cases ht : t = s
    · simp [ht]
    · simp [ht]
  · simp [hn]

theorem pool_link (g : Graph) (a sa b sb : Nat) :
    ((link g a sa b sb).1).pool = g.pool := by
  unfold link
  split_ifs <;> simp [pool_setSlot]

theorem length_link (g : Graph) (a sa b sb : Nat) :
    ((link g a sa b sb).1).nodes.length = g.nodes.length := by
  unfold link
  split_ifs <;> simp [length_setSlot]

theorem poolGet_poolSet_self (p : Pool) (k : PoolKey) (v : String) :
    poolGet (poolSet p k v) k = some v := by
  induction p with
  | nil => simp [poolSet, poolGet]
  | cons kv rest ih =>
      obtain ⟨k', v'⟩ := kv
      by_cases h : k' = k <;> simp [poolSet, poolGet, h, ih]

theorem newTurnCalc_eq (s i : Nat) (hi : i ≤ 4) :
    newTurnCalc s i = (s + 2 + (4 - i)) % 4 := by
  unfold newTurnCalc
  omega

/-! ### Claims C1, C3, C4: link and unlink behaviour -/

/-- Claim C1 counterexample: in `exG` the slot (0,0) holds the connection
⟨1, 2⟩, i.e. it does not point to (1, 3), and slot (1,3) holds ⟨0, 1⟩, not
(0, 0); the claim therefore requires `unlink(0,0,1,3)` to fail and mutate
nothing, but the call succeeds (returns the fall-through `undefined`) and
clears both slots, because the source compares only the `num` fields. -/
theorem unlink_side_mismatch_cex :
    slotOf exG 0 0 = some ⟨1, 2⟩ ∧ slotOf exG 1 3 = some ⟨0, 1⟩ ∧
    (unlink exG 0 0 1 3).2 = none ∧
    slotOf (unlink exG 0 0 1 3).1 0 0 = none ∧
    slotOf (unlink exG 0 0 1 3).1 1 3 = none := by decide

/-- Claim C1 (amended): `unlink(a, sa, b, sb)` succeeds if and only if the
connection at slot (a, sa) has target index `b` and the connection at slot
(b, sb) has target index `a`; the stored target sides are not compared.
When either index check fails the call fails and the graph is unchanged;
on success both named slots are cleared. -/
theorem unlink_exactness (g : Graph) (a sa b sb : Nat)
    (ha : a < g.nodes.length) (hb : b < g.nodes.length)
    (hsa : sa < 4) (hsb : sb < 4) :
    ((unlink g a sa b sb).2 = none ↔
      ((slotOf g a sa).map Conn.num = some b ∧
       (slotOf g b sb).map Conn.num = some a)) ∧
    ((unlink g a sa b sb).2 = some false → (unlink g a sa b sb).1 = g) ∧
    ((unlink g a sa b sb).2 = none →
      slotOf (unlink g a sa b sb).1 a sa = none ∧
      slotOf (unlink g a sa b sb).1 b sb = none) := by
  unfold unlink
  rw [if_pos ⟨ha, hb⟩]
  by_cases h1 : (slotOf g a sa).map Conn.num = some b
  · by_cases h2 : (slotOf g b sb).map Conn.num = some a
    · rw [if_neg (by simp [h1]), if_neg (by simp [h2])]
      have hb1 : b < (setSlot g a sa none).nodes.length := by
        rw [length_setSlot]; exact hb
      refine ⟨by simp [h1, h2], by simp, fun _ => ⟨?_, ?_⟩⟩
      · rw [slotOf_setSlot _ _ _ _ _ _ hb1 hsb]
        by_cases hcase : a = b ∧ sa = sb
        · rw [if_pos hcase]
        · rw [if_neg hcase, slotOf_setSlot _ _ _ _ _ _ ha hsa,
            if_pos ⟨rfl, rfl⟩]
      · rw [slotOf_setSlot _ _ _ _ _ _ hb1 hsb, if_pos ⟨rfl, rfl⟩]
    · rw [if_neg (by simp [h1]), if_pos (by simp [h2])]
      exact ⟨by simp [h2], fun _ => rfl, by simp⟩
  · rw [if_pos (by simp [h1])]
    exact ⟨by simp [h1], fun _ => rfl, by simp⟩

/-- Claim C1 witness: a successful exact unlink on `exG`, undoing the earlier
`link(0,0,1,2)`. -/
theorem unlink_exactness_witness :
    (0 < exG.nodes.length ∧ 1 < exG.nodes.length) ∧
    (((unlink exG 0 0 1 2).2 = none ↔
      ((slotOf exG 0 0).map Conn.num = some 1 ∧
       (slotOf exG 1 2).map Conn.num = some 0)) ∧
    ((unlink exG 0 0 1 2).2 = some false → (unlink exG 0 0 1 2).1 = exG) ∧
    ((unlink exG 0 0 1 2).2 = none →
      slotOf (unlink exG 0 0 1 2).1 0 0 = none ∧
      slotOf (unlink exG 0 0 1 2).1 1 2 = none)) :=
  ⟨by decide,
   unlink_exactness exG 0 0 1 2 (by decide) (by decide) (by decide) (by decide)⟩

/-- Claim C3: after every successful `link(a, sa, b, sb)` on valid, previously
unoccupied endpoints, slot (a, sa) holds the connection ⟨b, sb⟩ and slot
(b, sb) holds the connection ⟨a, sa⟩: both reciprocal connections are
written, never only one. -/
theorem link_symmetry (g : Graph) (a sa b sb : Nat)
    (ha : a < g.nodes.length) (hb : b < g.nodes.length)
    (hsa : sa < 4) (hsb : sb < 4)
    (h1 : slotOf g a sa = none) (h2 : slotOf g b sb = none) :
    slotOf ((link g a sa b sb).1) a sa = some ⟨b, sb⟩ ∧
    slotOf ((link g a sa b sb).1) b sb = some ⟨a, sa⟩ := by
  have hres : (link g a sa b sb).1
      = setSlot (setSlot g a sa (some ⟨b, sb⟩)) b sb (some ⟨a, sa⟩) := by
    unfold link
    rw [if_pos ⟨ha, hb⟩, if_neg (by simp [h1, h2])]
  have hb1 : b < (setSlot g a sa (some ⟨b, sb⟩)).nodes.length := by
    rw [length_setSlot]; exact hb
  constructor
  · rw [hres, slotOf_setSlot _ _ _ _ _ _ hb1 hsb]
    by_cases hcase : a = b ∧ sa = sb
    · obtain ⟨hab, hsab⟩ := hcase
      subst hab; subst hsab
      simp
    · rw [if_neg hcase, slotOf_setSlot _ _ _ _ _ _ ha hsa, if_pos ⟨rfl, rfl⟩]
  · rw [hres, slotOf_setSlot _ _ _ _ _ _ hb1 hsb, if_pos ⟨rfl, rfl⟩]

/-- Claim C3 witness: linking (0,0) to (1,2) in the empty two-node graph
writes both reciprocal connections. -/
theorem link_symmetry_witness :
    (0 < twoG.nodes.length ∧ 1 < twoG.nodes.length ∧
     slotOf twoG 0 0 = none ∧ slotOf twoG 1 2 = none) ∧
    (slotOf ((link twoG 0 0 1 2).1) 0 0 = some ⟨1, 2⟩ ∧
     slotOf ((link twoG 0 0 1 2).1) 1 2 = some ⟨0, 0⟩) :=
  ⟨by decide,
   link_symmetry twoG 0 0 1 2 (by decide) (by decide) (by decide) (by decide)
     (by decide) (by decide)⟩

/-- Claim C4: when either slot (a, sa) or slot (b, sb) is already occupied,
`link(a, sa, b, sb)` returns `false` and the whole graph — in particular
both endpoint slots — is exactly as before the call. -/
theorem link_no_overwrite (g : Graph) (a sa b sb : Nat)
    (ha : a < g.nodes.length) (hb : b < g.nodes.length)
    (hsa : sa < 4) (hsb : sb < 4)
    (hocc : slotOf g a sa ≠ none ∨ slotOf g b sb ≠ none) :
    link g a sa b sb = (g, some false) := by
  unfold link
  rw [if_pos ⟨ha, hb⟩, if_pos ?_]
  rcases hocc with h | h <;>
    simp [Option.isSome_iff_ne_none, h]

/-- Claim C4 witness: in `exG` slot (0,0) is occupied, so `link(0,0,1,0)`
fails and leaves the graph untouched. -/
theorem link_no_overwrite_witness :
    (0 < exG.nodes.length ∧ 1 < exG.nodes.length ∧ slotOf exG 0 0 ≠ none) ∧
    link exG 0 0 1 0 = (exG, some false) :=
  ⟨by decide,
   link_no_overwrite exG 0 0 1 0 (by decide) (by decide) (by decide) (by decide)
     (Or.inl (by decide))⟩

/-! ### Claims C2, C5: cursor navigation -/

/-- Claim C2: `next(d)` inspects absolute side `(d + turn) % 4`; an empty slot
gives null; a stored connection ⟨target, targetSide⟩ gives a cursor with
index `target` and turn `(targetSide + 2 - d + 4) mod 4` (written below in
the equivalent form `(targetSide + 2 + (4 - d)) % 4` over ℕ) when `target`
is populated, and null when it is not. -/
theorem next_spec (g : Graph) (c : Cursor) (d : Nat)
    (hidx : c.index < g.nodes.length) (hturn : c.turn < 4) (hd : d < 4) :
    next g c d =
      match slotOf g c.index ((d + c.turn) % 4) with
      | none => none
      | some conn =>
          if conn.num < g.nodes.length then
            some ⟨conn.num, (conn.side + 2 + (4 - d)) % 4⟩
          else none := by
  unfold next nextFull
  cases h : slotOf g c.index ((d + c.turn) % 4) with
  | none => rfl
  | some conn =>
      by_cases hc : conn.num < g.nodes.length
      · simp [hc, build, newTurnCalc_eq conn.side d (by omega)]
      · simp [hc]

/-- Claim C2 witness: direction 1 from the cursor at index 0 of `exG`. -/
theorem next_spec_witness :
    (0 < exG.nodes.length ∧ (0 : Nat) < 4 ∧ (1 : Nat) < 4) ∧
    next exG (build exG 0 0) 1 =
      (match slotOf exG 0 ((1 + 0) % 4) with
       | none => none
       | some conn =>
           if conn.num < exG.nodes.length then
             some ⟨conn.num, (conn.side + 2 + (4 - 1)) % 4⟩
           else none) :=
  ⟨by decide, next_spec exG (build exG 0 0) 1 (by decide) (by decide) (by decide)⟩

/-- Claim C5: for a link between (a, sa) and (b, sb) and a cursor at `a` whose
turn `t` maps relative direction `d` to absolute side `sa`, walking `next(d)`
and then `next((d + 2) % 4)` from the result lands on a cursor whose index is
again `a` (the turn may differ) and whose value equals the value at `a`. -/
theorem traversal_inverse (g : Graph) (a sa b sb t d : Nat)
    (ha : a < g.nodes.length) (hb : b < g.nodes.length)
    (hsb : sb < 4) (hd : d < 4)
    (h1 : slotOf g a sa = some ⟨b, sb⟩) (h2 : slotOf g b sb = some ⟨a, sa⟩)
    (hmap : (d + t) % 4 = sa) :
    next g (build g a t) d = some (build g b (newTurnCalc sb d)) ∧
    next g (build g b (newTurnCalc sb d)) ((d + 2) % 4) =
      some (build g a (newTurnCalc sa ((d + 2) % 4))) ∧
    cursorValue g (build g a (newTurnCalc sa ((d + 2) % 4))) =
      cursorValue g (build g a t) := by
  refine ⟨?_, ?_, rfl⟩
  · unfold next nextFull
    simp only [build]
    rw [hmap, h1]
    simp [hb, build]
  · unfold next nextFull
    simp only [build]
    have habs : (((d + 2) % 4) + newTurnCalc sb d) % 4 = sb := by
      rw [newTurnCalc_eq sb d (by omega)]
      omega
    rw [habs, h2]
    simp [ha, build]

/-- Claim C5 witness: the link (0,0)-(1,2) of `exG`, cursor at 0 with turn 0,
direction 0. -/
theorem traversal_inverse_witness :
    (0 < exG.nodes.length ∧ 1 < exG.nodes.length ∧
     slotOf exG 0 0 = some ⟨1, 2⟩ ∧ slotOf exG 1 2 = some ⟨0, 0⟩ ∧
     (0 + 0) % 4 = 0) ∧
    (next exG (build exG 0 0) 0 = some (build exG 1 (newTurnCalc 2 0)) ∧
     next exG (build exG 1 (newTurnCalc 2 0)) ((0 + 2) % 4) =
       some (build exG 0 (newTurnCalc 0 ((0 + 2) % 4))) ∧
     cursorValue exG (build exG 0 (newTurnCalc 0 ((0 + 2) % 4))) =
       cursorValue exG (build exG 0 0)) :=
  ⟨by decide,
   traversal_inverse exG 0 0 1 2 0 0 (by decide) (by decide) (by decide)
     (by decide) (by decide) (by decide) (by decide)⟩

/-! ### Claim C6: the four-node wraparound demo -/

/-- Claim C6: in the demo construction the cursor built at index 0 does have
value "node 0", but the wiring is not closed: the call `link(3,0,2,2)` fails
because slot (2,2) is already occupied by the earlier `link(1,0,2,2)`, so
slots (0,2) and (3,0) remain empty and `next(2)` from the initial cursor
already returns null, contradicting the never-null property at the very
first reachable cursor. -/
theorem demo_wraparound_gap :
    cursorValue demoGraph (build demoGraph 0 0) = some ("node 0") ∧
    slotOf demoGraph 2 2 = some ⟨1, 0⟩ ∧
    slotOf demoGraph 0 2 = none ∧
    slotOf demoGraph 3 0 = none ∧
    next demoGraph (build demoGraph 0 0) 2 = none := by decide

/-! ### Claim C7: out-of-range setValue and build -/

/-- Claim C7 counterexample: on a one-node graph, `setValue(5, "x")` does not
fail — it records "x" in the pool (under the `undefined` key shared by all
invalid indices) — and `build` at the invalid indices 5 and 7 returns cursor
objects without any error; the cursor built at 7 even reads back the value
stored by the out-of-range `setValue`. -/
theorem out_of_range_silent_cex :
    (setValue oneG 5 ("x")).pool = [(none, "x")] ∧
    (setValue oneG 5 ("x")).pool ≠ oneG.pool ∧
    build oneG 5 0 = ⟨5, 0⟩ ∧
    cursorValue (setValue oneG 5 ("x"))
      (build (setValue oneG 5 ("x")) 7 0) = some ("x") := by decide

/-- Claim C7 (amended): neither `setValue` nor `build` performs a bounds
check. For any index at or beyond the node count, `setValue(index, v)`
silently records `v` under the `undefined` key instead of surfacing an
OutOfRange failure, `build(index, t)` returns the cursor `(index, t)`
without failing, and that cursor reads the value just stored. -/
theorem out_of_range_silent (g : Graph) (idx t : Nat) (v : String)
    (h : g.nodes.length ≤ idx) :
    (setValue g idx v).nodes = g.nodes ∧
    (setValue g idx v).pool = poolSet g.pool none v ∧
    build g idx t = ⟨idx, t⟩ ∧
    cursorValue (setValue g idx v) (build (setValue g idx v) idx t) = some v := by
  have hkey : identityKey g idx = none := by
    unfold identityKey
    rw [if_neg (by omega)]
  refine ⟨rfl, ?_, rfl, ?_⟩
  · unfold setValue
    rw [hkey]
  · unfold cursorValue build setValue identityKey
    simp only
    rw [if_neg (by simp; omega)]
    exact poolGet_poolSet_self _ _ _

/-- Claim C7 witness: index 5 on the one-node graph. -/
theorem out_of_range_silent_witness :
    (oneG.nodes.length ≤ 5) ∧
    ((setValue oneG 5 ("x")).nodes = oneG.nodes ∧
     (setValue oneG 5 ("x")).pool = poolSet oneG.pool none ("x") ∧
     build oneG 5 0 = ⟨5, 0⟩ ∧
     cursorValue (setValue oneG 5 ("x"))
       (build (setValue oneG 5 ("x")) 5 0) = some ("x")) :=
  ⟨by decide, out_of_range_silent oneG 5 0 ("x") (by decide)⟩

/-! ### Claim C8: the return values of link and unlink -/

/-- Claim C8 counterexample: a successful `link(0,0,1,2)` on the empty
two-node graph really does write the slot, yet its return value is the
fall-through `undefined` (modelled `none`), not the boolean `true`; the
successful `unlink` that undoes it also returns `undefined`. -/
theorem link_return_cex :
    (link twoG 0 0 1 2).2 = none ∧
    (link twoG 0 0 1 2).2 ≠ some true ∧
    slotOf (link twoG 0 0 1 2).1 0 0 = some ⟨1, 2⟩ ∧
    (unlink (link twoG 0 0 1 2).1 0 0 1 2).2 = none ∧
    (unlink (link twoG 0 0 1 2).1 0 0 1 2).2 ≠ some true ∧
    slotOf (unlink (link twoG 0 0 1 2).1 0 0 1 2).1 0 0 = none := by decide

/-- Claim C8 (amended): on valid arguments `link` and `unlink` return the
boolean `false` exactly on their failure conditions (an occupied slot for
`link`, a target-index mismatch for `unlink`); on success they return no
value at all (JavaScript `undefined`), not a boolean `true`. -/
theorem link_unlink_return (g : Graph) (a sa b sb : Nat)
    (ha : a < g.nodes.length) (hb : b < g.nodes.length)
    (hsa : sa < 4) (hsb : sb < 4) :
    (link g a sa b sb).2 =
      (if (slotOf g a sa).isSome ∨ (slotOf g b sb).isSome
       then some false else none) ∧
    (unlink g a sa b sb).2 =
      (if (slotOf g a sa).map Conn.num = some b ∧
          (slotOf g b sb).map Conn.num = some a
       then none else some false) := by
  constructor
  · unfold link
    rw [if_pos ⟨ha, hb⟩]
    cases hA : (slotOf g a sa).isSome <;> cases hB : (slotOf g b sb).isSome <;>
      simp [hA, hB]
  · unfold unlink
    rw [if_pos ⟨ha, hb⟩]
    by_cases h1 : (slotOf g a sa).map Conn.num = some b <;>
      by_cases h2 : (slotOf g b sb).map Conn.num = some a <;>
      simp [h1, h2]

/-- Claim C8 witness: the successful link (0,0)-(1,2) on the two-node graph
and the failing unlink (0,0)-(1,1) right after it. -/
theorem link_unlink_return_witness :
    (0 < twoG.nodes.length ∧ 1 < twoG.nodes.length) ∧
    ((link twoG 0 0 1 2).2 =
      (if (slotOf twoG 0 0).isSome ∨ (slotOf twoG 1 2).isSome
       then some false else none) ∧
     (unlink twoG 0 0 1 2).2 =
      (if (slotOf twoG 0 0).map Conn.num = some 1 ∧
          (slotOf twoG 1 2).map Conn.num = some 0
       then none else some false)) :=
  ⟨by decide,
   link_unlink_return twoG 0 0 1 2 (by decide) (by decide) (by decide) (by decide)⟩

/-! ### Claim C10: cursor navigation never mutates the graph -/

theorem nextFull_fst (g : Graph) (c : Cursor) (i : Nat) :
    (nextFull g c i).1 = g := by
  unfold nextFull
  cases slotOf g c.index ((i + c.turn) % 4) with
  | none => rfl
  | some conn =>
      by_cases h : conn.num < g.nodes.length <;> simp [h]

/-- Claim C10: for every graph, cursor and direction, `next` leaves the state
untouched — the node sequence, every slot and the value pool after the call
are the graph itself — and the four named accessors are exactly `next` at
directions 0..3. -/
theorem next_no_mutation (g : Graph) (c : Cursor) (d : Nat) :
    (nextFull g c d).1 = g ∧
    (nextFull g c d).1.nodes = g.nodes ∧
    (nextFull g c d).1.pool = g.pool ∧
    right g c = nextFull g c 0 ∧ down g c = nextFull g c 1 ∧
    left g c = nextFull g c 2 ∧ up g c = nextFull g c 3 :=
  ⟨nextFull_fst g c d, by rw [nextFull_fst], by rw [nextFull_fst],
   rfl, rfl, rfl, rfl⟩

/-! ### Claim C9: the grid constructor -/

theorem Node.get_zero (nd : Node) : nd.get 0 = nd.s0 := rfl

theorem Node.get_one (nd : Node) : nd.get 1 = nd.s1 := rfl

theorem Node.get_two (nd : Node) : nd.get 2 = nd.s2 := rfl

theorem Node.get_three (nd : Node) : nd.get 3 = nd.s3 := rfl

theorem Node.set_zero (nd : Node) (c : Option Conn) :
    nd.set 0 c = ⟨c, nd.s1, nd.s2, nd.s3⟩ := rfl

theorem Node.set_one (nd : Node) (c : Option Conn) :
    nd.set 1 c = ⟨nd.s0, c, nd.s2, nd.s3⟩ := rfl

theorem Node.set_two (nd : Node) (c : Option Conn) :
    nd.set 2 c = ⟨nd.s0, nd.s1, c, nd.s3⟩ := rfl

theorem Node.set_three (nd : Node) (c : Option Conn) :
    nd.set 3 c = ⟨nd.s0, nd.s1, nd.s2, c⟩ := rfl

theorem slotOf_of_getElem (g : Graph) (m s : Nat) (nd : Node)
    (hx : g.nodes[m]? = some nd) : slotOf g m s = nd.get s := by
  unfold slotOf
  rw [hx]

/-- Pointwise description of the nodes after a successful `link`: the two
`setSlot` writes, applied in source order. -/
theorem link_nodes_free (g : Graph) (a sa b sb : Nat)
    (ha : a < g.nodes.length) (hb : b < g.nodes.length)
    (h1 : slotOf g a sa = none) (h2 : slotOf g b sb = none) (n : Nat) :
    ((link g a sa b sb).1).nodes[n]? =
      if n = b then
        ((if n = a then (g.nodes[n]?).map (fun nd => nd.set sa (some ⟨b, sb⟩))
          else g.nodes[n]?).map (fun nd => nd.set sb (some ⟨a, sa⟩)))
      else if n = a then
        (g.nodes[n]?).map (fun nd => nd.set sa (some ⟨b, sb⟩))
      else g.nodes[n]? := by
  have hres : (link g a sa b sb).1
      = setSlot (setSlot g a sa (some ⟨b, sb⟩)) b sb (some ⟨a, sa⟩) := by
    unfold link
    rw [if_pos ⟨ha, hb⟩, if_neg (by simp [h1, h2])]
  rw [hres, getElem?_setSlot, getElem?_setSlot]

theorem populate_nodes (n : Nat) : ∀ g : Graph,
    (populate g n).nodes = g.nodes ++ List.replicate n Node.empty := by
  induction n with
  | zero => intro g; simp [populate]
  | succ n ih =>
      intro g
      rw [populate, ih]
      simp [add, List.replicate_succ]

theorem gridIdx_lt (w h c r : Nat) (hc : c < w) (hr : r < h) :
    c + r * w < w * h := by
  have h2 : (r + 1) * w = r * w + w := Nat.succ_mul r w
  have h3 : (r + 1) * w ≤ h * w := Nat.mul_le_mul_right w hr
  have h4 : h * w = w * h := Nat.mul_comm h w
  omega

theorem gridIdx_inj (w c c' r r' : Nat) (hc : c < w) (hc' : c' < w)
    (h : c + r * w = c' + r' * w) : c = c' ∧ r = r' := by
  have hw : 0 < w := Nat.lt_of_le_of_lt (Nat.zero_le c) hc
  have h1 : (c + r * w) % w = c := by
    rw [Nat.add_mul_mod_self_right, Nat.mod_eq_of_lt hc]
  have h2 : (c' + r' * w) % w = c' := by
    rw [Nat.add_mul_mod_self_right, Nat.mod_eq_of_lt hc']
  have hcc : c = c' := by rw [← h1, ← h2, h]
  subst hcc
  have hrr : r * w = r' * w := by omega
  exact ⟨rfl, Nat.eq_of_mul_eq_mul_right hw hrr⟩

theorem gridTarget_start (w h c r : Nat) :
    gridTarget w h 0 0 c r = Node.empty := by
  unfold gridTarget Node.empty
  congr 1 <;> rw [if_neg (by omega)]

theorem gridInv_init (w h : Nat) :
    gridInv w h 0 0 (populate (mkGraph []) (w * h)) := by
  constructor
  · rw [populate_nodes]; simp [mkGraph]
  · intro c r hc hr
    rw [populate_nodes]
    simp only [mkGraph, List.nil_append]
    rw [List.getElem?_replicate, if_pos (gridIdx_lt w h c r hc hr),
      gridTarget_start]

theorem gridTarget_shift (w h I c r : Nat) (hr : r < h) :
    gridTarget w h I h c r = gridTarget w h (I + 1) 0 c r := by
  unfold gridTarget
  congr 1 <;> exact if_congr (by omega) rfl rfl

theorem gridInv_shift (w h I : Nat) (g : Graph) (hg : gridInv w h I h g) :
    gridInv w h (I + 1) 0 g := by
  obtain ⟨hlen, hnodes⟩ := hg
  exact ⟨hlen, fun c r hc hr => by
    rw [hnodes c r hc hr, gridTarget_shift w h I c r hr]⟩

theorem gridTarget_frame (w h I J c r : Nat)
    (h1 : ¬(c = I ∧ r = J ∧ (0 < c ∨ 0 < r)))
    (h2 : ¬(c + 1 = I ∧ r = J))
    (h3 : ¬(c = I ∧ r + 1 = J)) :
    gridTarget w h I J c r = gridTarget w h I (J + 1) c r := by
  unfold gridTarget
  congr 1 <;> exact if_congr (by omega) rfl rfl

theorem gridTarget_self_pp (w h I J : Nat) (hI0 : 0 < I) (hJ0 : 0 < J)
    (hI : I < w) (hJ : J < h) :
    ((gridTarget w h I J I J).set 3 (some ⟨I - 1 + J * w, 1⟩)).set 2
        (some ⟨I + (J - 1) * w, 0⟩)
      = gridTarget w h I (J + 1) I J := by
  rw [Node.set_three, Node.set_two]
  unfold gridTarget
  dsimp only
  congr 1
  · rw [if_neg (by omega), if_neg (by omega)]
  · rw [if_neg (by omega), if_neg (by omega)]
  · rw [if_pos (by omega)]
  · rw [if_pos (by omega)]

theorem gridTarget_self_p0 (w h I J : Nat) (hI0 : 0 < I) (hJz : J = 0)
    (hI : I < w) (hJ : J < h) :
    (gridTarget w h I J I J).set 3 (some ⟨I - 1 + J * w, 1⟩)
      = gridTarget w h I (J + 1) I J := by
  rw [Node.set_three]
  unfold gridTarget
  dsimp only
  congr 1
  · rw [if_neg (by omega), if_neg (by omega)]
  · rw [if_neg (by omega), if_neg (by omega)]
  · rw [if_neg (by omega), if_neg (by omega)]
  · rw [if_pos (by omega)]

theorem gridTarget_self_0p (w h I J : Nat) (hIz : I = 0) (hJ0 : 0 < J)
    (hI : I < w) (hJ : J < h) :
    (gridTarget w h I J I J).set 2 (some ⟨I + (J - 1) * w, 0⟩)
      = gridTarget w h I (J + 1) I J := by
  rw [Node.set_two]
  unfold gridTarget
  dsimp only
  congr 1
  · rw [if_neg (by omega), if_neg (by omega)]
  · rw [if_neg (by omega), if_neg (by omega)]
  · rw [if_pos (by omega)]
  · rw [if_neg (by omega), if_neg (by omega)]

theorem gridTarget_left (w h I J : Nat) (hI0 : 0 < I) (hI : I < w) (hJ : J < h) :
    (gridTarget w h I J (I - 1) J).set 1 (some ⟨I + J * w, 3⟩)
      = gridTarget w h I (J + 1) (I - 1) J := by
  rw [Node.set_one]
  unfold gridTarget
  dsimp only
  congr 1
  · exact if_congr (by omega) rfl rfl
  · rw [if_pos (by omega), show I - 1 + 1 + J * w = I + J * w from by omega]
  · exact if_congr (by omega) rfl rfl
  · exact if_congr (by omega) rfl rfl

theorem gridTarget_up (w h I J : Nat) (hJ0 : 0 < J) (hI : I < w) (hJ : J < h) :
    (gridTarget w h I J I (J - 1)).set 0 (some ⟨I + J * w, 2⟩)
      = gridTarget w h I (J + 1) I (J - 1) := by
  rw [Node.set_zero]
  unfold gridTarget
  dsimp only
  rw [show J - 1 + 1 = J from by omega]
  congr 1
  · rw [if_pos (by omega)]
  · exact if_congr (by omega) rfl rfl
  · exact if_congr (by omega) rfl rfl
  · exact if_congr (by omega) rfl rfl

theorem gridStep_inv (w h I J : Nat) (g : Graph) (hI : I < w) (hJ : J < h)
    (hg : gridInv w h I J g) : gridInv w h I (J + 1) (gridStep w g I J) := by
  obtain ⟨hlen, hnodes⟩ := hg
  have hw : 0 < w := Nat.lt_of_le_of_lt (Nat.zero_le I) hI
  have hself : g.nodes[I + J * w]? = some (gridTarget w h I J I J) :=
    hnodes I J hI hJ
  have hidx : I + J * w < g.nodes.length := by
    rw [hlen]; exact gridIdx_lt w h I J hI hJ
  have eJw : (J - 1) * w + w = J * w ∨ J = 0 := by
    cases J with
    | zero => exact Or.inr rfl
    | succ j => exact Or.inl (by simp [Nat.succ_mul])
  by_cases hI0 : 0 < I
  · have eL : I + J * w - 1 = I - 1 + J * w := by omega
    have hleft : g.nodes[I - 1 + J * w]? = some (gridTarget w h I J (I - 1) J) :=
      hnodes (I - 1) J (by omega) hJ
    have hleftlt : I - 1 + J * w < g.nodes.length := by
      rw [hlen]; exact gridIdx_lt w h (I - 1) J (by omega) hJ
    have dSL : I + J * w ≠ I - 1 + J * w := by omega
    have hfree1a : slotOf g (I + J * w) 3 = none := by
      rw [slotOf_of_getElem g _ 3 _ hself, Node.get_three]
      unfold gridTarget
      dsimp only
      rw [if_neg (by omega)]
    have hfree1b : slotOf g (I - 1 + J * w) 1 = none := by
      rw [slotOf_of_getElem g _ 1 _ hleft, Node.get_one]
      unfold gridTarget
      dsimp only
      rw [if_neg (by omega)]
    have hL1 := link_nodes_free g (I + J * w) 3 (I - 1 + J * w) 1
      hidx hleftlt hfree1a hfree1b
    have hlen1 : ((link g (I + J * w) 3 (I - 1 + J * w) 1).1).nodes.length
        = g.nodes.length := length_link g _ 3 _ 1
    have hg1self : ((link g (I + J * w) 3 (I - 1 + J * w) 1).1).nodes[I + J * w]?
        = some ((gridTarget w h I J I J).set 3 (some ⟨I - 1 + J * w, 1⟩)) := by
      rw [hL1 (I + J * w), if_neg dSL, if_pos rfl, hself]
      rfl
    by_cases hJ0 : 0 < J
    · -- both links run
      have eU : I + J * w - w = I + (J - 1) * w := by omega
      have hup : g.nodes[I + (J - 1) * w]? = some (gridTarget w h I J I (J - 1)) :=
        hnodes I (J - 1) hI (by omega)
      have huplt : I + (J - 1) * w < g.nodes.length := by
        rw [hlen]; exact gridIdx_lt w h I (J - 1) hI (by omega)
      have dSU : I + J * w ≠ I + (J - 1) * w := by omega
      have dLU : I - 1 + J * w ≠ I + (J - 1) * w := by omega
      have hgs : gridStep w g I J
          = (link ((link g (I + J * w) 3 (I - 1 + J * w) 1).1)
              (I + J * w) 2 (I + (J - 1) * w) 0).1 := by
        simp only [gridStep]
        rw [if_pos hI0, if_pos hJ0, eL, eU]
      have hg1up : ((link g (I + J * w) 3 (I - 1 + J * w) 1).1).nodes[I + (J - 1) * w]?
          = some (gridTarget w h I J I (J - 1)) := by
        rw [hL1 (I + (J - 1) * w), if_neg (fun hh => dLU hh.symm),
          if_neg (fun hh => dSU hh.symm)]
        exact hup
      have hfree2a : slotOf ((link g (I + J * w) 3 (I - 1 + J * w) 1).1)
          (I + J * w) 2 = none := by
        rw [slotOf_of_getElem _ _ 2 _ hg1self,
          Node.get_set _ 3 2 _ (by omega), if_neg (by omega), Node.get_two]
        unfold gridTarget
        dsimp only
        rw [if_neg (by omega)]
      have hfree2b : slotOf ((link g (I + J * w) 3 (I - 1 + J * w) 1).1)
          (I + (J - 1) * w) 0 = none := by
        rw [slotOf_of_getElem _ _ 0 _ hg1up, Node.get_zero]
        unfold gridTarget
        dsimp only
        rw [if_neg (by omega)]
      have hL2 := link_nodes_free ((link g (I + J * w) 3 (I - 1 + J * w) 1).1)
        (I + J * w) 2 (I + (J - 1) * w) 0
        (by rw [hlen1]; exact hidx) (by rw [hlen1]; exact huplt) hfree2a hfree2b
      rw [hgs]
      refine ⟨by rw [length_link, length_link, hlen], fun c r hc hr => ?_⟩
      rw [hL2 (c + r * w)]
      by_cases ecr : c = I ∧ r = J
      · obtain ⟨hc1, hr1⟩ := ecr
        subst hc1; subst hr1
        rw [if_neg dSU, if_pos rfl, hg1self]
        exact congrArg some (gridTarget_self_pp w h c r hI0 hJ0 hI hJ)
      · by_cases ecl : c + 1 = I ∧ r = J
        · obtain ⟨hc1, hr1⟩ := ecl
          subst hr1
          have hc2 : c = I - 1 := by omega
          subst hc2
          rw [if_neg (by omega), if_neg (by omega), hL1 (I - 1 + r * w),
            if_pos rfl, if_neg (by omega), hleft]
          exact congrArg some (gridTarget_left w h I r hI0 hI hJ)
        · by_cases ecu : c = I ∧ r + 1 = J
          · obtain ⟨hc1, hr1⟩ := ecu
            subst hc1
            have hr2 : r = J - 1 := by omega
            subst hr2
            rw [if_pos rfl, if_neg (by omega), hg1up]
            exact congrArg some (gridTarget_up w h c J hJ0 hI hJ)
          · have hne1 : c + r * w ≠ I + (J - 1) * w := by
              intro he
              obtain ⟨e1, e2⟩ := gridIdx_inj w c I r (J - 1) hc hI he
              exact ecu ⟨e1, by omega⟩
            have hne2 : c + r * w ≠ I + J * w := by
              intro he
              obtain ⟨e1, e2⟩ := gridIdx_inj w c I r J hc hI he
              exact ecr ⟨e1, e2⟩
            have hne3 : c + r * w ≠ I - 1 + J * w := by
              intro he
              obtain ⟨e1, e2⟩ := gridIdx_inj w c (I - 1) r J hc (by omega) he
              exact ecl ⟨by omega, e2⟩
            rw [if_neg hne1, if_neg hne2, hL1 (c + r * w), if_neg hne3,
              if_neg hne2, hnodes c r hc hr]
            exact congrArg some
              (gridTarget_frame w h I J c r (by omega) (by omega) (by omega))
    · -- only the horizontal link runs
      have hgs : gridStep w g I J
          = (link g (I + J * w) 3 (I - 1 + J * w) 1).1 := by
        simp only [gridStep]
        rw [if_pos hI0, if_neg hJ0, eL]
      rw [hgs]
      refine ⟨by rw [length_link, hlen], fun c r hc hr => ?_⟩
      rw [hL1 (c + r * w)]
      by_cases ecr : c = I ∧ r = J
      · obtain ⟨hc1, hr1⟩ := ecr
        subst hc1; subst hr1
        rw [if_neg dSL, if_pos rfl, hself]
        exact congrArg some (gridTarget_self_p0 w h c r hI0 (by omega) hI hJ)
      · by_cases ecl : c + 1 = I ∧ r = J
        · obtain ⟨hc1, hr1⟩ := ecl
          subst hr1
          have hc2 : c = I - 1 := by omega
          subst hc2
          rw [if_pos rfl, if_neg (by omega), hleft]
          exact congrArg some (gridTarget_left w h I r hI0 hI hJ)
        · have hne2 : c + r * w ≠ I + J * w := by
            intro he
            obtain ⟨e1, e2⟩ := gridIdx_inj w c I r J hc hI he
            exact ecr ⟨e1, e2⟩
          have hne3 : c + r * w ≠ I - 1 + J * w := by
            intro he
            obtain ⟨e1, e2⟩ := gridIdx_inj w c (I - 1) r J hc (by omega) he
            exact ecl ⟨by omega, e2⟩
          rw [if_neg hne3, if_neg hne2, hnodes c r hc hr]
          exact congrArg some
            (gridTarget_frame w h I J c r (by omega) ecl (by omega))
  · by_cases hJ0 : 0 < J
    · -- only the vertical link runs
      have eU : I + J * w - w = I + (J - 1) * w := by omega
      have hup : g.nodes[I + (J - 1) * w]? = some (gridTarget w h I J I (J - 1)) :=
        hnodes I (J - 1) hI (by omega)
      have huplt : I + (J - 1) * w < g.nodes.length := by
        rw [hlen]; exact gridIdx_lt w h I (J - 1) hI (by omega)
      have dSU : I + J * w ≠ I + (J - 1) * w := by omega
      have hgs : gridStep w g I J
          = (link g (I + J * w) 2 (I + (J - 1) * w) 0).1 := by
        simp only [gridStep]
        rw [if_neg hI0, if_pos hJ0, eU]
      have hfree2a : slotOf g (I + J * w) 2 = none := by
        rw [slotOf_of_getElem g _ 2 _ hself, Node.get_two]
        unfold gridTarget
        dsimp only
        rw [if_neg (by omega)]
      have hfree2b : slotOf g (I + (J - 1) * w) 0 = none := by
        rw [slotOf_of_getElem g _ 0 _ hup, Node.get_zero]
        unfold gridTarget
        dsimp only
        rw [if_neg (by omega)]
      have hL2 := link_nodes_free g (I + J * w) 2 (I + (J - 1) * w) 0
        hidx huplt hfree2a hfree2b
      rw [hgs]
      refine ⟨by rw [length_link, hlen], fun c r hc hr => ?_⟩
      rw [hL2 (c + r * w)]
      by_cases ecr : c = I ∧ r = J
      · obtain ⟨hc1, hr1⟩ := ecr
        subst hc1; subst hr1
        rw [if_neg dSU, if_pos rfl, hself]
        exact congrArg some (gridTarget_self_0p w h c r (by omega) hJ0 hI hJ)
      · by_cases ecu : c = I ∧ r + 1 = J
        · obtain ⟨hc1, hr1⟩ := ecu
          subst hc1
          have hr2 : r = J - 1 := by omega
          subst hr2
          rw [if_pos rfl, if_neg (by omega), hup]
          exact congrArg some (gridTarget_up w h c J hJ0 hI hJ)
        · have hne1 : c + r * w ≠ I + (J - 1) * w := by
            intro he
            obtain ⟨e1, e2⟩ := gridIdx_inj w c I r (J - 1) hc hI he
            exact ecu ⟨e1, by omega⟩
          have hne2 : c + r * w ≠ I + J * w := by
            intro he
            obtain ⟨e1, e2⟩ := gridIdx_inj w c I r J hc hI he
            exact ecr ⟨e1, e2⟩
          rw [if_neg hne1, if_neg hne2, hnodes c r hc hr]
          exact congrArg some
            (gridTarget_frame w h I J c r (by omega) (by omega) (by omega))
    · -- neither link runs
      have hgs : gridStep w g I J = g := by
        simp only [gridStep]
        rw [if_neg hI0, if_neg hJ0]
      rw [hgs]
      refine ⟨hlen, fun c r hc hr => ?_⟩
      rw [hnodes c r hc hr]
      exact congrArg some
        (gridTarget_frame w h I J c r (by omega) (by omega) (by omega))

theorem gridRows_inv (w h I : Nat) (g : Graph) (hI : I < w) :
    ∀ J : Nat, J ≤ h → gridInv w h I 0 g → gridInv w h I J (gridRows w I g J) := by
  intro J
  induction J with
  | zero => exact fun _ h0 => h0
  | succ j ih =>
      intro hJ h0
      exact gridStep_inv w h I j _ hI (by omega) (ih (by omega) h0)

theorem gridCols_inv (w h : Nat) (g : Graph) :
    ∀ I : Nat, I ≤ w → gridInv w h 0 0 g → gridInv w h I 0 (gridCols w h g I) := by
  intro I
  induction I with
  | zero => exact fun _ h0 => h0
  | succ i ih =>
      intro hI h0
      exact gridInv_shift w h i _
        (gridRows_inv w h i _ (by omega) h (le_refl h) (ih (by omega) h0))

theorem grid_inv_final (w h : Nat) : gridInv w h w 0 (grid w h) := by
  unfold grid
  exact gridCols_inv w h _ w (le_refl w) (gridInv_init w h)

/-- Claim C9: `grid w h` populates exactly `w * h` nodes (row-major index
`i + j * w`), and its fixed policy links each node at column `i > 0` by its
side 3 (labeled up) to side 1 (labeled down) of the left neighbour, and each
node at row `j > 0` by its side 2 (labeled left) to side 0 (labeled right)
of the neighbour above, both connections written reciprocally. -/
theorem grid_spec (w h i j : Nat) (hw : 1 ≤ w) (hh : 1 ≤ h)
    (hi : i < w) (hj : j < h) :
    (grid w h).nodes.length = w * h ∧
    (0 < i →
      slotOf (grid w h) (i + j * w) 3 = some ⟨i - 1 + j * w, 1⟩ ∧
      slotOf (grid w h) (i - 1 + j * w) 1 = some ⟨i + j * w, 3⟩) ∧
    (0 < j →
      slotOf (grid w h) (i + j * w) 2 = some ⟨i + (j - 1) * w, 0⟩ ∧
      slotOf (grid w h) (i + (j - 1) * w) 0 = some ⟨i + j * w, 2⟩) := by
  obtain ⟨hlen, hnodes⟩ := grid_inv_final w h
  refine ⟨hlen, fun hi0 => ⟨?_, ?_⟩, fun hj0 => ⟨?_, ?_⟩⟩
  · rw [slotOf_of_getElem _ _ 3 _ (hnodes i j hi hj), Node.get_three]
    unfold gridTarget
    dsimp only
    rw [if_pos ⟨hi0, Or.inl hi⟩]
  · rw [slotOf_of_getElem _ _ 1 _ (hnodes (i - 1) j (by omega) hj), Node.get_one]
    unfold gridTarget
    dsimp only
    rw [if_pos (Or.inl (by omega)),
      show i - 1 + 1 + j * w = i + j * w from by omega]
  · rw [slotOf_of_getElem _ _ 2 _ (hnodes i j hi hj), Node.get_two]
    unfold gridTarget
    dsimp only
    rw [if_pos ⟨hj0, Or.inl hi⟩]
  · rw [slotOf_of_getElem _ _ 0 _ (hnodes i (j - 1) hi (by omega)), Node.get_zero]
    unfold gridTarget
    dsimp only
    rw [show j - 1 + 1 = j from by omega, if_pos ⟨hj, Or.inl hi⟩]

/-- Claim C9 witness: the 2 by 2 grid at cell (1, 1). -/
theorem grid_spec_witness :
    ((1 : Nat) ≤ 2 ∧ (1 : Nat) < 2) ∧
    ((grid 2 2).nodes.length = 2 * 2 ∧
    (0 < 1 →
      slotOf (grid 2 2) (1 + 1 * 2) 3 = some ⟨1 - 1 + 1 * 2, 1⟩ ∧
      slotOf (grid 2 2) (1 - 1 + 1 * 2) 1 = some ⟨1 + 1 * 2, 3⟩) ∧
    (0 < 1 →
      slotOf (grid 2 2) (1 + 1 * 2) 2 = some ⟨1 + (1 - 1) * 2, 0⟩ ∧
      slotOf (grid 2 2) (1 + (1 - 1) * 2) 0 = some ⟨1 + 1 * 2, 2⟩)) :=
  ⟨by decide, grid_spec 2 2 1 1 (by decide) (by decide) (by decide) (by decide)⟩

end QuadGraph
